import Mathlib

/-
  Verification of the FOSSology scheduler core
  (src/scheduler/agent/scheduler.c).

  The C source is shallowly embedded: pure helpers become Lean functions,
  the per-tick scheduling pass `scheduler_update` becomes a function from an
  explicit scheduler state to a record of its observable effects, and the
  signal machinery becomes pure functions on a Nat bitmask.  Helpers that
  live in other compilation units of the repository (job.c, host.c, agent.c)
  are modelled from the specification and marked as such in their doc
  comments.
-/

namespace FossSched

/- ********************************************************************** -/
/- Character classes used by scheduler.c (C `isdigit`, the regex classes) -/
/- ********************************************************************** -/

/-- C `isdigit` on the ASCII range: `'0' ≤ c ≤ '9'`. -/
def isdigit (c : Char) : Bool := '0' ≤ c && c ≤ '9'

/-- The regex character class `[A-Z]` of `parse_agent_msg`. -/
def isCapital (c : Char) : Bool := 'A' ≤ c && c ≤ 'Z'

/-- The regex character class `[ \t]` of `parse_agent_msg`. -/
def isSpaceTab (c : Char) : Bool := c = ' ' || c = '\t'

/- ********************************************************************** -/
/- string_is_num (scheduler.c lines 1259-1268) and its use in             -/
/- kill_scheduler (line 679)                                              -/
/- ********************************************************************** -/

/-- The index loop of `string_is_num`: starting at index `i`, scan to the end
of the string; return FALSE at the first non-digit character, TRUE if the
end is reached. -/
def string_is_num_loop (str : List Char) (i : Nat) : Bool :=
  if h : i < str.length then
    if isdigit (str.get ⟨i, h⟩) then string_is_num_loop str (i + 1)
    else false
  else true
termination_by str.length - i

/-- `string_is_num` from scheduler.c: `for(i = 0; i < len; i++) if(!isdigit(str[i])) return FALSE; return TRUE;`. -/
def string_is_num (str : List Char) : Bool := string_is_num_loop str 0

/-- The per-directory-entry test of `kill_scheduler` (scheduler.c line 679):
an entry of `/proc/` is treated as a candidate pid directory iff
`string_is_num(ep->d_name)` holds. -/
def kill_scheduler_considers (d_name : List Char) : Bool := string_is_num d_name

/- ********************************************************************** -/
/- The agent-message regex of scheduler_init (lines 335-337):             -/
/-   ([A-Z]+):([ \t]+)(\d+)(([ \t]+)(\d))?                                -/
/- ********************************************************************** -/

/-- The optional tail `(([ \t]+)(\d))?` of the `parse_agent_msg` regex, at
end of input: either nothing is left, or one-or-more space/tab characters
followed by exactly one digit.  Note the source pattern has `(\d)`, a single
digit, for the second counter. -/
def agent_msg_tail (r : List Char) : Bool :=
  if r.isEmpty then true
  else
    let ws2 := r.takeWhile isSpaceTab
    let r2  := r.dropWhile isSpaceTab
    !ws2.isEmpty &&
      (match r2 with
       | [d] => isdigit d
       | _ => false)

/-- Full-match language of the regex `([A-Z]+):([ \t]+)(\d+)(([ \t]+)(\d))?`
compiled in `scheduler_init` as `parse_agent_msg`.  The character classes of
adjacent pieces are disjoint (capitals, `':'`, space/tab, digits), so the
greedy scan below recognizes exactly the strings generated by the pattern. -/
def agent_msg_full_match (s : List Char) : Bool :=
  let key := s.takeWhile isCapital
  let r := s.dropWhile isCapital
  if r.head? = some ':' then
    let r1  := r.tail
    let ws1 := r1.takeWhile isSpaceTab
    let r2  := r1.dropWhile isSpaceTab
    let n   := r2.takeWhile isdigit
    let r3  := r2.dropWhile isdigit
    !key.isEmpty && !ws1.isEmpty && !n.isEmpty && agent_msg_tail r3
  else false

/-- The optional tail as the specification words it: `[<whitespace><m>]` with
`m` a (decimal) number of any length.  This follows the spec's words, for
comparison with the source-derived `agent_msg_tail`. -/
def agent_msg_spec_tail (r : List Char) : Bool :=
  if r.isEmpty then true
  else
    let ws2 := r.takeWhile isSpaceTab
    let r2  := r.dropWhile isSpaceTab
    !ws2.isEmpty && !r2.isEmpty && r2.all isdigit

/-- The message format as the specification words it:
`<KEY>:<whitespace><n>[<whitespace><m>]` where `KEY` is one or more capital
letters and `n`, `m` are numbers of any length.  This follows the spec's
words, for comparison with the source-derived `agent_msg_full_match`. -/
def agent_msg_spec_match (s : List Char) : Bool :=
  let key := s.takeWhile isCapital
  let r := s.dropWhile isCapital
  if r.head? = some ':' then
    let r1  := r.tail
    let ws1 := r1.takeWhile isSpaceTab
    let r2  := r1.dropWhile isSpaceTab
    let n   := r2.takeWhile isdigit
    let r3  := r2.dropWhile isdigit
    !key.isEmpty && !ws1.isEmpty && !n.isEmpty && agent_msg_spec_tail r3
  else false

/-- The decomposition recognized by the source regex, stated structurally:
a nonempty run of capitals, `':'`, nonempty whitespace, a nonempty run of
digits, and optionally nonempty whitespace followed by a SINGLE digit. -/
def AgentMsgShape (s : List Char) : Prop :=
  ∃ key ws1 n rest, s = key ++ ':' :: (ws1 ++ (n ++ rest)) ∧
    key ≠ [] ∧ key.all isCapital = true ∧
    ws1 ≠ [] ∧ ws1.all isSpaceTab = true ∧
    n ≠ [] ∧ n.all isdigit = true ∧
    (rest = [] ∨ ∃ ws2 d, rest = ws2 ++ [d] ∧ ws2 ≠ [] ∧
      ws2.all isSpaceTab = true ∧ isdigit d = true)

/- ********************************************************************** -/
/- Signal bridge: scheduler_sig_handle (lines 134-167) and                -/
/- scheduler_signal (lines 183-274)                                       -/
/- ********************************************************************** -/

/-- `MASK_SIGCHLD` (scheduler.c line 73). -/
def MASK_SIGCHLD : Nat := 1 <<< 0
/-- `MASK_SIGALRM` (scheduler.c line 74). -/
def MASK_SIGALRM : Nat := 1 <<< 1
/-- `MASK_SIGTERM` (scheduler.c line 75). -/
def MASK_SIGTERM : Nat := 1 <<< 2
/-- `MASK_SIGQUIT` (scheduler.c line 76). -/
def MASK_SIGQUIT : Nat := 1 <<< 3
/-- `MASK_SIGHUP` (scheduler.c line 77). -/
def MASK_SIGHUP : Nat := 1 <<< 4

/-- The signal kinds cased by `scheduler_sig_handle`. -/
inductive CSignal where
  | SIGCHLD
  | SIGALRM
  | SIGTERM
  | SIGQUIT
  | SIGHUP
deriving DecidableEq

/-- The bit index of each signal's mask constant (`MASK_SIG* = 1 << i`). -/
def sig_mask_bit : CSignal → Nat
  | CSignal.SIGCHLD => 0
  | CSignal.SIGALRM => 1
  | CSignal.SIGTERM => 2
  | CSignal.SIGQUIT => 3
  | CSignal.SIGHUP  => 4

/-- The `#if __GNUC__` path of `scheduler_sig_handle` (lines 154-158): each
cased signal performs `__sync_fetch_and_or(&sigmask, MASK_SIG...)`, modelled
as a pure OR on the mask.  NOTE the source has no `SIGALRM` case in this
path, so `SIGALRM` falls through the switch and leaves the mask unchanged. -/
def scheduler_sig_handle_gnuc (mask : Nat) : CSignal → Nat
  | CSignal.SIGCHLD => mask ||| MASK_SIGCHLD
  | CSignal.SIGTERM => mask ||| MASK_SIGTERM
  | CSignal.SIGQUIT => mask ||| MASK_SIGQUIT
  | CSignal.SIGHUP  => mask ||| MASK_SIGHUP
  | CSignal.SIGALRM => mask

/-- The `#else` (non-GCC) path of `scheduler_sig_handle` (lines 160-164):
plain, non-atomic `sigmask |= MASK_SIG...` for all five signals, including
`SIGALRM`. -/
def scheduler_sig_handle_plain (mask : Nat) : CSignal → Nat
  | CSignal.SIGCHLD => mask ||| MASK_SIGCHLD
  | CSignal.SIGALRM => mask ||| MASK_SIGALRM
  | CSignal.SIGTERM => mask ||| MASK_SIGTERM
  | CSignal.SIGQUIT => mask ||| MASK_SIGQUIT
  | CSignal.SIGHUP  => mask ||| MASK_SIGHUP

/-- The events a drain of the signal mask can enqueue. -/
inductive SchedEvent where
  | agent_death (pid : Nat) (status : Nat)
  | scheduler_close (killed : Bool)
  | config_reload
  | agent_update
  | database_update
deriving DecidableEq

/-- Recognizer for `agent_death` events. -/
def isAgentDeath : SchedEvent → Bool
  | SchedEvent.agent_death _ _ => true
  | _ => false

/-- The event-emitting behaviour of `scheduler_signal` on a drained mask
(scheduler.c lines 203-273).  The non-blocking reap loop
`while((n = waitpid(-1, &status, WNOHANG)) > 0)` is an OS interaction; it is
modelled by the input `dead`, the list of `(pid, status)` pairs of children
that have exited and are reapable, in the order `waitpid` returns them — the
loop emits one `agent_death_event` per pair.  `SIGHUP` runs
`scheduler_config_event` inline rather than queueing; it is recorded here as
a `config_reload` effect.  `update_due` stands for the timer test
`time(NULL) - last_update > CONF_agent_update_interval`. -/
def scheduler_signal (mask : Nat) (dead : List (Nat × Nat)) (update_due : Bool) :
    List SchedEvent :=
  (if mask &&& MASK_SIGCHLD ≠ 0 then
    dead.map (fun p => SchedEvent.agent_death p.1 p.2) else [])
  ++ (if mask &&& MASK_SIGTERM ≠ 0 then [SchedEvent.scheduler_close false] else [])
  ++ (if mask &&& MASK_SIGQUIT ≠ 0 then [SchedEvent.scheduler_close true] else [])
  ++ (if mask &&& MASK_SIGHUP ≠ 0 then [SchedEvent.config_reload] else [])
  ++ (if update_due then [SchedEvent.agent_update, SchedEvent.database_update] else [])

/- ********************************************************************** -/
/- Data model for the scheduler tick (agent.h / host.h / job.h as used by  -/
/- scheduler_update, lines 474-580)                                        -/
/- ********************************************************************** -/

/-- The special flags of a meta-agent (`SAG_EXCLUSIVE`, `SAG_NOEMAIL`,
`SAG_NOKILL`, `SAG_LOCAL` of agent.h). -/
inductive SpecialFlag where
  | EXCLUSIVE
  | NOEMAIL
  | NOKILL
  | LOCAL
deriving DecidableEq

/-- A meta-agent as used by `scheduler_update`: the per-agent-type template
with its run cap, its current live count and its flag set. -/
structure MetaAgent where
  name : String
  max_run : Nat
  run_count : Nat
  special : List SpecialFlag
deriving DecidableEq

/-- A host as used by `scheduler_update`: a name with a running/max pair. -/
structure Host where
  name : String
  running : Nat
  max : Nat
deriving DecidableEq

/-- Job statuses (job.h). -/
inductive JobStatus where
  | QUEUED
  | STARTED
  | PAUSED
  | RESTART
  | FAILED
  | COMPLETE
deriving DecidableEq

/-- A job as used by `scheduler_update`. -/
structure Job where
  id : Nat
  agent_type : String
  required_host : Option String
  status : JobStatus
  message : String
deriving DecidableEq

/-- `LOCAL_HOST`, the name of the local host used for `SAG_LOCAL` agents. -/
def LOCAL_HOST : String := "localhost"

/-- The message written to `job->message` by `scheduler_update` when the
pinned `required_host` of a job is not in the host registry (line 540). -/
def jqHostErrorMsg : String := "ERROR: jq_host not in the agent list!"

/-- The job as updated on a missing pinned host (lines 540-541): the
message is set to `jqHostErrorMsg` and `job_fail_event` makes the status
FAILED (modelled from the spec, §7). -/
def fail_jq_host (j : Job) : Job :=
  { j with message := jqHostErrorMsg, status := JobStatus.FAILED }

/-- `isMaxLimitReached` (scheduler.c lines 447-457): TRUE iff the meta-agent
pointer is non-NULL and `max_run <= run_count`; a NULL meta-agent yields
FALSE. -/
def isMaxLimitReached : Option MetaAgent → Bool
  | some agent => decide (agent.max_run ≤ agent.run_count)
  | none => false

/-- Modelled from the spec: `is_meta_special` (agent.c, not under src/)
tests whether a meta-agent carries a given flag; flags are a "set over
{EXCLUSIVE, NOEMAIL, NOKILL, LOCAL}" (§3), and a job whose type has no
registered meta-agent carries no flags. -/
def is_meta_special (m : Option MetaAgent) (f : SpecialFlag) : Bool :=
  match m with
  | some agent => decide (f ∈ agent.special)
  | none => false

/-- Modelled from the spec: `get_host` (host.c, not under src/) is the
general placement lookup, "walks a circular cursor and returns the first
host with `running < max` or ∅" (§4.C).  The cursor rotation does not
matter for the properties below and is not modelled. -/
def get_host : List Host → Option Host
  | [] => none
  | h :: t => if h.running < h.max then some h else get_host t

/-- Modelled from the spec: `peek_job` (job.c, not under src/) "returns the
head of the job queue and does not remove it" (§4.E `peek`). -/
def peek_job (q : List Job) : Option Job := q.head?

/-- Modelled from the spec: `next_job` (job.c, not under src/) advances the
queue, "removes the head" (§4.E `advance`). -/
def next_job (q : List Job) : List Job := q.tail

/-- The scheduler state read by one call of `scheduler_update`: the global
`closing` flag, the `s_startup`/`s_pause` flags, the two counts computed at
the top of the tick (`g_tree_nnodes(scheduler->agents)` and
`active_jobs(scheduler->job_list)`, the latter from job.c and therefore an
input here), the job queue, the two registries as lookup functions, the
round-robin host queue, and the three statics `job`, `host`, `lockout` of
`scheduler_update`. -/
structure SchedState where
  closing : Bool
  s_startup : Bool
  s_pause : Bool
  n_agents : Nat
  n_jobs : Nat
  job_queue : List Job
  meta_agents : String → Option MetaAgent
  host_list : String → Option Host
  host_queue : List Host
  held_job : Option Job
  held_host : Option Host
  lockout : Bool

/-- The observable outcome of one `scheduler_update` call: the new queue,
the new values of the three statics, the new flags, whether
`event_loop_terminate` was called, how many `database_update_event`s were
signalled, the `agent_init` calls in order (the static `host` pointer is
passed as-is, hence `Option Host`), the `job_fail_event` calls, and whether
a NULL-pointer dereference was reached. -/
structure TickResult where
  job_queue : List Job
  held_job : Option Job
  held_host : Option Host
  lockout : Bool
  s_startup : Bool
  s_pause : Bool
  terminated : Bool
  db_updates : Nat
  spawns : List (Option Host × Job)
  failed : List Job
  crash : Bool

/-- Outcome of the host-selection block of the placement loop
(scheduler.c lines 515-551) for the job at the head of the queue. -/
inductive HostSel where
  | crash
  | blocked
  | fail (j : Job)
  | chosen (h : Host)
deriving DecidableEq

/-- The host-selection block of the placement loop (lines 515-551):
* `SAG_LOCAL` agents look up `LOCAL_HOST`; the C code dereferences the
  lookup result (`host->running`) with no NULL check, so a missing
  `localhost` entry is a NULL-pointer dereference (`crash`); a full
  `localhost` breaks the loop (`blocked`).
* A job pinning `required_host` looks that host up; a present-but-full host
  breaks the loop; a missing host sets `job->message` and calls
  `job_fail_event` (`fail`, carrying the updated job).
* Otherwise `get_host` picks a host; `none` breaks the loop. -/
def select_host (ms : String → Option MetaAgent) (hl : String → Option Host)
    (hq : List Host) (j : Job) : HostSel :=
  if is_meta_special (ms j.agent_type) SpecialFlag.LOCAL then
    match hl LOCAL_HOST with
    | none => HostSel.crash
    | some h => if h.running < h.max then HostSel.chosen h else HostSel.blocked
  else
    match j.required_host with
    | some rh =>
      match hl rh with
      | some h => if h.running < h.max then HostSel.chosen h else HostSel.blocked
      | none =>
        HostSel.fail (fail_jq_host j)
    | none =>
      match get_host hq with
      | none => HostSel.blocked
      | some h => HostSel.chosen h

/-- Result of the placement loop: the remaining queue, the final values of
the `job`/`host` statics, the `agent_init` calls, the `job_fail_event`
calls, and whether a NULL dereference was reached. -/
structure LoopResult where
  queue : List Job
  job : Option Job
  host : Option Host
  spawns : List (Option Host × Job)
  failed : List Job
  crash : Bool
deriving DecidableEq

/-- The placement loop `while((job = peek_job(...)) != NULL)` of
`scheduler_update` (lines 504-564).  Each iteration peeks the head job,
breaks on a reached max-run limit, selects a host, advances the queue,
holds an `SAG_EXCLUSIVE` job in the statics and breaks, and otherwise calls
`agent_init` and loops.  `job_fail_event` (job.c, not under src/) is
modelled from the spec: the failed job leaves the pending queue ("a job is
in the pending queue iff `status = QUEUED`", §3) with `status = FAILED`
(§7), its message having been set by the caller.  The registry updates done
inside `agent_init` (agent.c, not under src/) are not modelled; the claims
below only concern the first placement decision of a tick.  The C static
`host` keeps a stale value on the break paths; it is only ever read when
`job != NULL`, so the model returns `none` for it there. -/
def sched_loop (ms : String → Option MetaAgent) (hl : String → Option Host)
    (hq : List Host) : List Job → LoopResult
  | [] => ⟨[], none, none, [], [], false⟩
  | j :: t =>
    if isMaxLimitReached (ms j.agent_type) then
      ⟨j :: t, none, none, [], [], false⟩
    else
      match select_host ms hl hq j with
      | HostSel.crash => ⟨j :: t, none, none, [], [], true⟩
      | HostSel.blocked => ⟨j :: t, none, none, [], [], false⟩
      | HostSel.fail j' => ⟨t, none, none, [], [j'], false⟩
      | HostSel.chosen h =>
        if is_meta_special (ms j.agent_type) SpecialFlag.EXCLUSIVE then
          ⟨t, some j, some h, [], [], false⟩
        else
          let r := sched_loop ms hl hq t
          ⟨r.queue, r.job, r.host, (some h, j) :: r.spawns, r.failed, r.crash⟩

/-- The part of `scheduler_update` after the placement loop (lines 567-579),
applied to the loop outcome `r`: on a NULL dereference in the loop the tick
is cut short; otherwise, if the `job` static holds a (necessarily
EXCLUSIVE) job and the tick-start counts are both zero, `agent_init` is
called on the held `(host, job)` pair, `lockout` is set and the statics are
cleared; finally the pause block (`if(s_pause) { s_startup = 1;
s_pause = 0; }`) runs. -/
def tick_after (s : SchedState) (db1 : Nat) (startup1 lockout1 : Bool)
    (r : LoopResult) : TickResult :=
  if r.crash then
    { job_queue := r.queue, held_job := r.job, held_host := r.host,
      lockout := lockout1, s_startup := startup1, s_pause := s.s_pause,
      terminated := false, db_updates := db1, spawns := r.spawns,
      failed := r.failed, crash := true }
  else
    match r.job with
    | some j0 =>
      if s.n_agents = 0 ∧ s.n_jobs = 0 then
        { job_queue := r.queue, held_job := none, held_host := none,
          lockout := true,
          s_startup := if s.s_pause then true else startup1,
          s_pause := if s.s_pause then false else s.s_pause,
          terminated := false, db_updates := db1,
          spawns := r.spawns ++ [(r.host, j0)], failed := r.failed,
          crash := false }
      else
        { job_queue := r.queue, held_job := some j0, held_host := r.host,
          lockout := lockout1,
          s_startup := if s.s_pause then true else startup1,
          s_pause := if s.s_pause then false else s.s_pause,
          terminated := false, db_updates := db1, spawns := r.spawns,
          failed := r.failed, crash := false }
    | none =>
      { job_queue := r.queue, held_job := none, held_host := r.host,
        lockout := lockout1,
        s_startup := if s.s_pause then true else startup1,
        s_pause := if s.s_pause then false else s.s_pause,
        terminated := false, db_updates := db1, spawns := r.spawns,
        failed := r.failed, crash := false }

/-- `scheduler_update` (scheduler.c lines 474-580), the per-event tick:
startup drain, shutdown test, lockout clear, placement loop (run only when
the `job` static is NULL and `lockout` is clear, i.e. after the clear), and
the post-loop part `tick_after` (exclusive dispatch and pause block).  The
two counts are those computed at the top of the tick. -/
def scheduler_update (s : SchedState) : TickResult :=
  if s.closing ∧ s.n_agents = 0 ∧ s.n_jobs = 0 then
    { job_queue := s.job_queue, held_job := s.held_job,
      held_host := s.held_host, lockout := s.lockout,
      s_startup := if s.s_startup ∧ s.n_agents = 0 then false else s.s_startup,
      s_pause := s.s_pause, terminated := true,
      db_updates := if s.s_startup ∧ s.n_agents = 0 then 1 else 0,
      spawns := [], failed := [], crash := false }
  else
    tick_after s
      (if s.s_startup ∧ s.n_agents = 0 then 1 else 0)
      (if s.s_startup ∧ s.n_agents = 0 then false else s.s_startup)
      (if s.lockout ∧ s.n_agents = 0 ∧ s.n_jobs = 0 then false else s.lockout)
      (if s.held_job = none
          ∧ (if s.lockout ∧ s.n_agents = 0 ∧ s.n_jobs = 0
              then false else s.lockout) = false
        then sched_loop s.meta_agents s.host_list s.host_queue s.job_queue
        else ⟨s.job_queue, s.held_job, s.held_host, [], [], false⟩)

/- ********************************************************************** -/
/- Sample registry entries and states for concrete evaluations            -/
/- ********************************************************************** -/

/-- A meta-agent with the EXCLUSIVE flag and a free run slot. -/
def mExcl : MetaAgent := ⟨"pkgagent", 1, 0, [SpecialFlag.EXCLUSIVE]⟩

/-- A meta-agent whose run limit is reached (`run_count = max_run = 2`). -/
def mFull : MetaAgent := ⟨"nomos", 2, 2, []⟩

/-- A meta-agent with `max_run = 0`. -/
def mZero : MetaAgent := ⟨"monk", 0, 0, []⟩

/-- A meta-agent with the LOCAL flag. -/
def mLocal : MetaAgent := ⟨"delagent", 1, 0, [SpecialFlag.LOCAL]⟩

/-- A host with a free slot. -/
def hostA : Host := ⟨"hostA", 0, 2⟩

/-- A queued job of the EXCLUSIVE type. -/
def jExcl : Job := ⟨1, "pkgagent", none, JobStatus.QUEUED, ""⟩

/-- A queued job of the full type. -/
def jFull : Job := ⟨2, "nomos", none, JobStatus.QUEUED, ""⟩

/-- A queued job of the `max_run = 0` type. -/
def jZero : Job := ⟨6, "monk", none, JobStatus.QUEUED, ""⟩

/-- A queued job pinning the absent host `"ghost"`. -/
def jPin : Job := ⟨3, "ununpack", some "ghost", JobStatus.QUEUED, ""⟩

/-- A queued generic job whose agent type has no registered meta-agent. -/
def jGen : Job := ⟨4, "wget_agent", none, JobStatus.QUEUED, ""⟩

/-- A queued job of the LOCAL type. -/
def jLoc : Job := ⟨5, "delagent", none, JobStatus.QUEUED, ""⟩

/-- Closing scheduler with no live agents and no active jobs. -/
def stClosed : SchedState :=
  { closing := true, s_startup := false, s_pause := false, n_agents := 0,
    n_jobs := 0, job_queue := [], meta_agents := fun _ => none,
    host_list := fun _ => none, host_queue := [], held_job := none,
    held_host := none, lockout := false }

/-- Closing scheduler with one live agent left. -/
def stClosedBusy : SchedState := { stClosed with n_agents := 1 }

/-- A tick state whose head job's meta-agent has reached its run limit. -/
def stMaxed : SchedState :=
  { closing := false, s_startup := false, s_pause := false, n_agents := 2,
    n_jobs := 1, job_queue := [jFull],
    meta_agents := fun nm => if nm = "nomos" then some mFull else none,
    host_list := fun _ => none, host_queue := [hostA], held_job := none,
    held_host := none, lockout := false }

/-- A tick state whose head job pins the absent host `"ghost"`. -/
def stGhost : SchedState :=
  { closing := false, s_startup := false, s_pause := false, n_agents := 0,
    n_jobs := 0, job_queue := [jPin], meta_agents := fun _ => none,
    host_list := fun _ => none, host_queue := [hostA], held_job := none,
    held_host := none, lockout := false }

/-- A tick state whose head job's agent type has no registered meta-agent. -/
def stNoMeta : SchedState :=
  { closing := false, s_startup := false, s_pause := false, n_agents := 0,
    n_jobs := 0, job_queue := [jGen], meta_agents := fun _ => none,
    host_list := fun _ => none, host_queue := [hostA], held_job := none,
    held_host := none, lockout := false }

/-- A tick state with an EXCLUSIVE job at the head of the queue while an
agent is still live (`n_agents = 1`). -/
def stExclBusy : SchedState :=
  { closing := false, s_startup := false, s_pause := false, n_agents := 1,
    n_jobs := 1, job_queue := [jExcl],
    meta_agents := fun nm => if nm = "pkgagent" then some mExcl else none,
    host_list := fun _ => none, host_queue := [hostA], held_job := none,
    held_host := none, lockout := false }

/-- A tick state with an EXCLUSIVE job at the head of a drained system. -/
def stExclIdle : SchedState := { stExclBusy with n_agents := 0, n_jobs := 0 }

/-- A drained tick state (`n_agents = n_jobs = 0`) whose held slot already
carries an EXCLUSIVE job from an earlier tick. -/
def stHeldIdle : SchedState :=
  { closing := false, s_startup := false, s_pause := false, n_agents := 0,
    n_jobs := 0, job_queue := [],
    meta_agents := fun nm => if nm = "pkgagent" then some mExcl else none,
    host_list := fun _ => none, host_queue := [hostA],
    held_job := some jExcl, held_host := some hostA, lockout := false }

/-- A busy tick state whose held slot carries an EXCLUSIVE job from an
earlier tick while agents are still live. -/
def stHeldBusy : SchedState := { stHeldIdle with n_agents := 2, n_jobs := 1 }

/-- A tick state with a LOCAL job at the head and an empty host registry. -/
def stLocalEmpty : SchedState :=
  { closing := false, s_startup := false, s_pause := false, n_agents := 0,
    n_jobs := 0, job_queue := [jLoc],
    meta_agents := fun nm => if nm = "delagent" then some mLocal else none,
    host_list := fun _ => none, host_queue := [], held_job := none,
    held_host := none, lockout := false }

/-- A tick state with a generic job at the head and an empty host registry. -/
def stGenEmpty : SchedState :=
  { closing := false, s_startup := false, s_pause := false, n_agents := 0,
    n_jobs := 0, job_queue := [jGen], meta_agents := fun _ => none,
    host_list := fun _ => none, host_queue := [], held_job := none,
    held_host := none, lockout := false }

/- ********************************************************************** -/
/- Helper lemmas                                                          -/
/- ********************************************************************** -/

/-- Scanning an `l ++ t` with all of `l` satisfying `p` and the head of `t`
(if any) violating it splits exactly at the boundary. -/
theorem span_append (p : Char → Bool) (l t : List Char)
    (hl : ∀ c ∈ l, p c = true) (ht : ∀ c, t.head? = some c → p c = false) :
    (l ++ t).takeWhile p = l ∧ (l ++ t).dropWhile p = t := by
  induction l with
  | nil =>
    simp only [List.nil_append]
    cases t with
    | nil => simp
    | cons c t' =>
      have hc := ht c rfl
      exact ⟨by simp [List.takeWhile_cons, hc], by simp [List.dropWhile_cons, hc]⟩
  | cons a l' ih =>
    have ha : p a = true := hl a (by simp)
    have ih' := ih (fun c hc => hl c (by simp [hc]))
    exact ⟨by simp [List.takeWhile_cons, ha, ih'.1],
           by simp [List.dropWhile_cons, ha, ih'.2]⟩

/-- A space or tab is not a digit. -/
theorem spacetab_not_digit {c : Char} (h : isSpaceTab c = true) :
    isdigit c = false := by
  have h' : c = ' ' ∨ c = '\t' := by simp [isSpaceTab] at h; exact h
  rcases h' with h' | h' <;> subst h' <;> decide

/-- A digit is neither a space nor a tab. -/
theorem digit_not_spacetab {c : Char} (h : isdigit c = true) :
    isSpaceTab c = false := by
  cases hsp : isSpaceTab c
  · rfl
  · rw [spacetab_not_digit hsp] at h
    cases h

/-- Every element of a `takeWhile p` prefix satisfies `p`. -/
theorem takeWhile_all (p : Char → Bool) (l : List Char) :
    (l.takeWhile p).all p = true := by
  induction l with
  | nil => rfl
  | cons a l' ih =>
    by_cases ha : p a
    · simp [List.takeWhile_cons, ha, ih]
    · simp [List.takeWhile_cons, ha]

/-- The index loop of `string_is_num` checks exactly that every character
from index `i` on is a digit. -/
theorem string_is_num_loop_eq (str : List Char) :
    ∀ i, string_is_num_loop str i = (str.drop i).all isdigit := by
  have key : ∀ k i, str.length - i ≤ k →
      string_is_num_loop str i = (str.drop i).all isdigit := by
    intro k
    induction k with
    | zero =>
      intro i hi
      unfold string_is_num_loop
      have hge : ¬ i < str.length := by omega
      rw [dif_neg hge, List.drop_eq_nil_of_le (by omega)]
      rfl
    | succ k ih =>
      intro i hi
      unfold string_is_num_loop
      by_cases h : i < str.length
      · rw [dif_pos h, List.drop_eq_getElem_cons h, List.all_cons]
        by_cases hd : isdigit (str.get ⟨i, h⟩)
        · rw [if_pos hd, ih (i + 1) (by omega)]
          have : str[i] = str.get ⟨i, h⟩ := rfl
          rw [this, hd]
          simp
        · rw [if_neg hd]
          have : str[i] = str.get ⟨i, h⟩ := rfl
          rw [this]
          simp [Bool.not_eq_true] at hd
          simp [hd]
      · rw [dif_neg h, List.drop_eq_nil_of_le (by omega)]
        rfl
  exact fun i => key (str.length - i) i (Nat.le_refl _)

/- ********************************************************************** -/
/- C10: string_is_num is TRUE iff all characters are digits; TRUE on ""   -/
/- ********************************************************************** -/

/-- C10: `string_is_num` returns TRUE iff every character of its argument
is a decimal digit; in particular it returns TRUE on the empty string, so
`kill_scheduler` treats a `/proc` entry with an empty name as a candidate
pid directory. -/
theorem c10_string_is_num_iff_all_digits :
    (∀ s : List Char, string_is_num s = true ↔ ∀ c ∈ s, isdigit c = true)
    ∧ string_is_num [] = true
    ∧ kill_scheduler_considers [] = true := by
  have hiff : ∀ s : List Char, string_is_num s = true ↔ ∀ c ∈ s, isdigit c = true := by
    intro s
    rw [string_is_num, string_is_num_loop_eq, List.drop_zero]
    simp [List.all_eq_true]
  refine ⟨hiff, ?_, ?_⟩
  · exact (hiff []).mpr (by intro c hc; cases hc)
  · exact (hiff []).mpr (by intro c hc; cases hc)

/- ********************************************************************** -/
/- C7: the signal handler bitmask (corrected: no SIGALRM in the GCC path) -/
/- ********************************************************************** -/

/-- C7 counterexample: in the `#if __GNUC__` path of `scheduler_sig_handle`
(the path actually compiled by GCC), delivering `SIGALRM` does not set the
`MASK_SIGALRM` bit — the switch has no `SIGALRM` case there — refuting the
claim that each of the five accepted signals OR-sets its bit. -/
theorem c7_counterexample_sigalrm_bit_not_set :
    Nat.testBit (scheduler_sig_handle_gnuc 0 CSignal.SIGALRM)
      (sig_mask_bit CSignal.SIGALRM) = false := by decide

/-- C7 (amended): in the GCC path the handler OR-sets the corresponding
mask bit for SIGCHLD, SIGTERM, SIGQUIT and SIGHUP, never clears an already
recorded bit, and leaves the mask unchanged on SIGALRM; the non-GCC path
OR-sets the bit for all five signals (though not atomically). -/
theorem c7_sig_handle_bits (mask : Nat) (sg : CSignal) :
    (∀ i, Nat.testBit mask i = true →
        Nat.testBit (scheduler_sig_handle_gnuc mask sg) i = true)
    ∧ (sg ≠ CSignal.SIGALRM →
        Nat.testBit (scheduler_sig_handle_gnuc mask sg) (sig_mask_bit sg) = true)
    ∧ scheduler_sig_handle_gnuc mask CSignal.SIGALRM = mask
    ∧ Nat.testBit (scheduler_sig_handle_plain mask sg) (sig_mask_bit sg) = true := by
  have hbit : ∀ (m k : Nat), Nat.testBit (m ||| (1 <<< k)) k = true := by
    intro m k
    rw [Nat.testBit_or]
    have h2 : Nat.testBit (1 <<< k) k = true := by
      rw [Nat.shiftLeft_eq, one_mul]
      exact Nat.testBit_two_pow_self
    simp [h2]
  have hmono : ∀ (m x i : Nat), Nat.testBit m i = true →
      Nat.testBit (m ||| x) i = true := by
    intro m x i h
    rw [Nat.testBit_or, h]
    rfl
  refine ⟨?_, ?_, rfl, ?_⟩
  · intro i hi
    cases sg <;>
      simp only [scheduler_sig_handle_gnuc] <;>
      first
        | exact hmono _ _ _ hi
        | exact hi
  · intro hne
    cases sg <;>
      simp only [scheduler_sig_handle_gnuc, sig_mask_bit, MASK_SIGCHLD,
        MASK_SIGTERM, MASK_SIGQUIT, MASK_SIGHUP]
    case SIGALRM => exact absurd rfl hne
    all_goals exact hbit mask _
  · cases sg <;>
      simp only [scheduler_sig_handle_plain, sig_mask_bit, MASK_SIGCHLD,
        MASK_SIGALRM, MASK_SIGTERM, MASK_SIGQUIT, MASK_SIGHUP] <;>
      exact hbit mask _

/-- C7 witness: at mask 0 and SIGTERM the GCC-path handler sets the
SIGTERM bit, and at mask 5 SIGALRM leaves the mask unchanged. -/
theorem c7_sig_handle_bits_witness :
    Nat.testBit (scheduler_sig_handle_gnuc 0 CSignal.SIGTERM)
      (sig_mask_bit CSignal.SIGTERM) = true
    ∧ scheduler_sig_handle_gnuc 5 CSignal.SIGALRM = 5 :=
  ⟨(c7_sig_handle_bits 0 CSignal.SIGTERM).2.1 (by decide),
   (c7_sig_handle_bits 5 CSignal.SIGTERM).2.2.1⟩

/- ********************************************************************** -/
/- C6: the SIGCHLD drain emits one agent_death event per reaped child     -/
/- ********************************************************************** -/

/-- C6: when the drained mask has the SIGCHLD bit set, the drain emits
exactly the `agent_death` events of the reap loop — one per `(pid, status)`
pair returned by `waitpid(-1, ..., WNOHANG)`, in order — so two children
dead before a single drain yield exactly two `agent_death` events. -/
theorem c6_sigchld_drain (mask : Nat) (dead : List (Nat × Nat)) (b : Bool)
    (h : mask &&& MASK_SIGCHLD ≠ 0) :
    (scheduler_signal mask dead b).filter isAgentDeath
        = dead.map (fun p => SchedEvent.agent_death p.1 p.2)
    ∧ (scheduler_signal mask dead b).countP isAgentDeath = dead.length := by
  have hfil : (scheduler_signal mask dead b).filter isAgentDeath
      = dead.map (fun p => SchedEvent.agent_death p.1 p.2) := by
    unfold scheduler_signal
    rw [if_pos h]
    simp only [List.filter_append]
    have h1 : (dead.map (fun p => SchedEvent.agent_death p.1 p.2)).filter
        isAgentDeath = dead.map (fun p => SchedEvent.agent_death p.1 p.2) := by
      apply List.filter_eq_self.mpr
      intro e he
      rcases List.mem_map.mp he with ⟨p, _, rfl⟩
      rfl
    have hseg : ∀ (c : Prop) (inst : Decidable c) (l : List SchedEvent),
        l.filter isAgentDeath = [] →
        (@ite _ c inst l []).filter isAgentDeath = [] := by
      intro c inst l hlf
      split
      · exact hlf
      · rfl
    rw [h1,
      hseg _ _ [SchedEvent.scheduler_close false] rfl,
      hseg _ _ [SchedEvent.scheduler_close true] rfl,
      hseg _ _ [SchedEvent.config_reload] rfl,
      hseg _ _ [SchedEvent.agent_update, SchedEvent.database_update] rfl]
    simp
  refine ⟨hfil, ?_⟩
  rw [List.countP_eq_length_filter, hfil, List.length_map]

/-- C6 witness: with the SIGCHLD bit set and two reapable children, the
drain emits exactly two `agent_death` events, one per child. -/
theorem c6_sigchld_drain_witness :
    (scheduler_signal MASK_SIGCHLD [(4, 0), (9, 15)] false).countP isAgentDeath = 2
    ∧ (scheduler_signal MASK_SIGCHLD [(4, 0), (9, 15)] false).filter isAgentDeath
        = [SchedEvent.agent_death 4 0, SchedEvent.agent_death 9 15] := by
  have h := c6_sigchld_drain MASK_SIGCHLD [(4, 0), (9, 15)] false (by decide)
  exact ⟨h.2, h.1⟩

/- ********************************************************************** -/
/- C4: the agent-message format (corrected: second counter is one digit)  -/
/- ********************************************************************** -/

/-- A list whose `!isEmpty` test is true is not nil. -/
theorem not_isEmpty_ne (l : List Char) (h : (!l.isEmpty) = true) : l ≠ [] := by
  cases l with
  | nil => simp at h
  | cons a t => simp

/-- A nonempty list has an empty-test of false. -/
theorem ne_isEmpty_false (l : List Char) (h : l ≠ []) : l.isEmpty = false := by
  cases l with
  | nil => exact absurd rfl h
  | cons a t => rfl

/-- A list whose empty-test is true is nil. -/
theorem isEmpty_true_nil (l : List Char) (h : l.isEmpty = true) : l = [] := by
  cases l with
  | nil => rfl
  | cons a t => exact Bool.noConfusion h

/-- C4 counterexample: the line `HEART: 1 23` has the form
`<KEY>:<whitespace><n><whitespace><m>` with both counters decimal numbers
(it satisfies the spec-worded matcher), yet the language of the source
regex `([A-Z]+):([ \t]+)(\d+)(([ \t]+)(\d))?` does not contain it, because
the second counter in the pattern is the single-digit `(\d)`. -/
theorem c4_counterexample_two_digit_counter :
    agent_msg_spec_match ("HEART: 1 23".data) = true
    ∧ agent_msg_full_match ("HEART: 1 23".data) = false := by
  constructor
  · rfl
  · rfl

/-- C4 (amended): the full-match language of the `parse_agent_msg` regex is
exactly `<KEY>:<whitespace><n>[<whitespace><m>]` where `KEY` is one or more
capital letters, `n` is a number, and `m` is a SINGLE digit; in particular
`HEART: <x> [<y>]` is fully matched for every `x` but only for one-digit
`y`. -/
theorem c4_agent_msg_language (s : List Char) :
    agent_msg_full_match s = true ↔ AgentMsgShape s := by
  constructor
  · intro h
    simp only [agent_msg_full_match] at h
    by_cases hc : (s.dropWhile isCapital).head? = some ':'
    · rw [if_pos hc] at h
      obtain ⟨r1, heq⟩ : ∃ r1, s.dropWhile isCapital = ':' :: r1 := by
        cases hr : s.dropWhile isCapital with
        | nil => rw [hr] at hc; exact Option.noConfusion hc
        | cons a t =>
          rw [hr] at hc
          simp only [List.head?_cons, Option.some.injEq] at hc
          exact ⟨t, by rw [hc]⟩
      rw [heq] at h
      simp only [List.tail_cons] at h
      rw [Bool.and_eq_true, Bool.and_eq_true, Bool.and_eq_true] at h
      obtain ⟨⟨⟨hkeyb, hws1b⟩, hnb⟩, htail⟩ := h
      have hsplit : s = s.takeWhile isCapital ++ (':' :: r1) := by
        conv_lhs => rw [← List.takeWhile_append_dropWhile (p := isCapital) (l := s)]
        rw [heq]
      have hrest : (r1.dropWhile isSpaceTab).dropWhile isdigit = []
          ∨ ∃ ws2 d, (r1.dropWhile isSpaceTab).dropWhile isdigit = ws2 ++ [d]
            ∧ ws2 ≠ [] ∧ ws2.all isSpaceTab = true ∧ isdigit d = true := by
        simp only [agent_msg_tail] at htail
        by_cases hre : ((r1.dropWhile isSpaceTab).dropWhile isdigit).isEmpty = true
        · left
          exact isEmpty_true_nil _ hre
        · rw [if_neg hre] at htail
          rw [Bool.and_eq_true] at htail
          obtain ⟨hws2b, hd⟩ := htail
          split at hd
          next d heqd =>
            refine Or.inr ⟨((r1.dropWhile isSpaceTab).dropWhile isdigit).takeWhile
                isSpaceTab, d, ?_, not_isEmpty_ne _ hws2b, takeWhile_all _ _, hd⟩
            conv_lhs => rw [← List.takeWhile_append_dropWhile (p := isSpaceTab)
              (l := (r1.dropWhile isSpaceTab).dropWhile isdigit)]
            rw [heqd]
          next => exact Bool.noConfusion hd
      refine ⟨s.takeWhile isCapital, r1.takeWhile isSpaceTab,
        (r1.dropWhile isSpaceTab).takeWhile isdigit,
        (r1.dropWhile isSpaceTab).dropWhile isdigit,
        ?_, not_isEmpty_ne _ hkeyb, takeWhile_all _ _,
        not_isEmpty_ne _ hws1b, takeWhile_all _ _,
        not_isEmpty_ne _ hnb, takeWhile_all _ _, hrest⟩
      conv_lhs => rw [hsplit]
      have hr1eq : r1 = r1.takeWhile isSpaceTab
          ++ ((r1.dropWhile isSpaceTab).takeWhile isdigit
            ++ (r1.dropWhile isSpaceTab).dropWhile isdigit) := by
        rw [List.takeWhile_append_dropWhile, List.takeWhile_append_dropWhile]
      rw [← hr1eq]
    · rw [if_neg hc] at h
      exact Bool.noConfusion h
  · rintro ⟨key, ws1, n, rest, rfl, hkey, hkeyall, hws1, hws1all, hn, hnall, hrest⟩
    have hkeyall' : ∀ c ∈ key, isCapital c = true := by
      intro c hc
      exact List.all_eq_true.mp hkeyall c hc
    have hws1all' : ∀ c ∈ ws1, isSpaceTab c = true := by
      intro c hc
      exact List.all_eq_true.mp hws1all c hc
    have hnall' : ∀ c ∈ n, isdigit c = true := by
      intro c hc
      exact List.all_eq_true.mp hnall c hc
    have h1 := span_append isCapital key (':' :: (ws1 ++ (n ++ rest))) hkeyall'
      (by
        intro c hc
        simp only [List.head?_cons, Option.some.injEq] at hc
        rw [← hc]
        decide)
    obtain ⟨d0, n', rfl⟩ : ∃ d0 n', n = d0 :: n' := by
      cases n with
      | nil => exact absurd rfl hn
      | cons d0 n' => exact ⟨d0, n', rfl⟩
    have h2 := span_append isSpaceTab ws1 ((d0 :: n') ++ rest) hws1all'
      (by
        intro c hc
        simp only [List.cons_append, List.head?_cons, Option.some.injEq] at hc
        rw [← hc]
        exact digit_not_spacetab (hnall' d0 (by simp)))
    have h3 := span_append isdigit (d0 :: n') rest hnall'
      (by
        intro c hc
        rcases hrest with rfl | ⟨ws2, d, rfl, hws2, hws2all, hd⟩
        · exact Option.noConfusion hc
        · obtain ⟨w0, ws2', rfl⟩ : ∃ w0 ws2', ws2 = w0 :: ws2' := by
            cases ws2 with
            | nil => exact absurd rfl hws2
            | cons w0 ws2' => exact ⟨w0, ws2', rfl⟩
          simp only [List.cons_append, List.head?_cons, Option.some.injEq] at hc
          rw [← hc]
          exact spacetab_not_digit (List.all_eq_true.mp hws2all w0 (by simp)))
    simp only [agent_msg_full_match]
    rw [h1.2]
    simp only [List.head?_cons, List.tail_cons]
    simp only [if_true]
    rw [h1.1, h2.1, h2.2, h3.1, h3.2]
    rw [ne_isEmpty_false _ hkey, ne_isEmpty_false _ hws1,
      ne_isEmpty_false _ (by simp : d0 :: n' ≠ [])]
    simp only [Bool.not_false, Bool.true_and]
    rcases hrest with rfl | ⟨ws2, d, rfl, hws2, hws2all, hd⟩
    · rfl
    · obtain ⟨w0, ws2', rfl⟩ : ∃ w0 ws2', ws2 = w0 :: ws2' := by
        cases ws2 with
        | nil => exact absurd rfl hws2
        | cons w0 ws2' => exact ⟨w0, ws2', rfl⟩
      have hws2all' : ∀ c ∈ w0 :: ws2', isSpaceTab c = true := by
        intro c hc
        exact List.all_eq_true.mp hws2all c hc
      have h4 := span_append isSpaceTab (w0 :: ws2') [d] hws2all'
        (by
          intro c hc
          simp only [List.head?_cons, Option.some.injEq] at hc
          rw [← hc]
          exact digit_not_spacetab hd)
      simp only [List.cons_append] at h4 ⊢
      simp only [agent_msg_tail]
      rw [if_neg (by simp)]
      rw [h4.1, h4.2]
      rw [ne_isEmpty_false _ (by simp : w0 :: ws2' ≠ [])]
      simp only [Bool.not_false, Bool.true_and]
      exact hd

/- ********************************************************************** -/
/- C5: shutdown condition of the tick                                     -/
/- ********************************************************************** -/

/-- No branch of the post-loop part of the tick terminates the loop. -/
theorem tick_after_terminated_false (s : SchedState) (db1 : Nat)
    (st1 L : Bool) (r : LoopResult) :
    (tick_after s db1 st1 L r).terminated = false := by
  simp only [tick_after]
  split
  · rfl
  · split
    · split
      · rfl
      · rfl
    · rfl

/-- C5: whenever the tick runs with the closing flag set, zero live agents
and zero active jobs, it terminates the event loop and returns immediately
without any placement (no spawns, no failures, queue untouched); with any
live agent or active job remaining, the tick does not terminate the loop. -/
theorem c5_shutdown (s : SchedState) :
    (s.closing = true → s.n_agents = 0 → s.n_jobs = 0 →
      (scheduler_update s).terminated = true
      ∧ (scheduler_update s).spawns = []
      ∧ (scheduler_update s).failed = []
      ∧ (scheduler_update s).job_queue = s.job_queue)
    ∧ ((s.n_agents ≠ 0 ∨ s.n_jobs ≠ 0) →
      (scheduler_update s).terminated = false) := by
  constructor
  · intro h1 h2 h3
    have hcond : (s.closing = true ∧ s.n_agents = 0 ∧ s.n_jobs = 0) := ⟨h1, h2, h3⟩
    simp only [scheduler_update]
    rw [if_pos hcond]
    exact ⟨rfl, rfl, rfl, rfl⟩
  · intro hnz
    have hcond : ¬(s.closing = true ∧ s.n_agents = 0 ∧ s.n_jobs = 0) := by
      rcases hnz with h | h <;> exact fun hca => h (by tauto)
    simp only [scheduler_update]
    rw [if_neg hcond]
    exact tick_after_terminated_false _ _ _ _ _

/-- C5 witness: the closing drained state terminates with an empty
placement, and the closing state with one live agent does not terminate. -/
theorem c5_shutdown_witness :
    (scheduler_update stClosed).terminated = true
    ∧ (scheduler_update stClosed).job_queue = []
    ∧ (scheduler_update stClosedBusy).terminated = false := by
  refine ⟨((c5_shutdown stClosed).1 rfl rfl rfl).1, ?_,
    (c5_shutdown stClosedBusy).2 (Or.inl (by decide))⟩
  exact ((c5_shutdown stClosed).1 rfl rfl rfl).2.2.2

/- ********************************************************************** -/
/- C2: the max-run limit breaks the placement loop without skipping       -/
/- ********************************************************************** -/

/-- C2: in any tick whose head job has a meta-agent with
`run_count ≥ max_run`, the placement loop breaks without advancing or
skipping the head: the queue is unchanged (the head job is still at the
head, hence still QUEUED), nothing is spawned and nothing is failed.
Since `run_count ≥ 0` always holds, a meta-agent with `max_run = 0`
satisfies the hypothesis at every tick, so such a job is never dispatched
and remains QUEUED. -/
theorem c2_max_limit_break (s : SchedState) (j : Job) (t : List Job)
    (m : MetaAgent)
    (hq : s.job_queue = j :: t)
    (hm : s.meta_agents j.agent_type = some m)
    (hmax : m.max_run ≤ m.run_count)
    (hheld : s.held_job = none) :
    (scheduler_update s).job_queue = s.job_queue
    ∧ (scheduler_update s).spawns = []
    ∧ (scheduler_update s).failed = []
    ∧ (scheduler_update s).job_queue.head? = some j := by
  have hml : isMaxLimitReached (s.meta_agents j.agent_type) = true := by
    rw [hm]
    simp [isMaxLimitReached, hmax]
  simp only [scheduler_update]
  by_cases hterm : s.closing = true ∧ s.n_agents = 0 ∧ s.n_jobs = 0
  · rw [if_pos hterm]
    exact ⟨rfl, rfl, rfl, by simp [hq]⟩
  · rw [if_neg hterm]
    by_cases hgate : s.held_job = none
        ∧ (if s.lockout = true ∧ s.n_agents = 0 ∧ s.n_jobs = 0 then false
            else s.lockout) = false
    · rw [if_pos hgate, hq]
      have hloop : sched_loop s.meta_agents s.host_list s.host_queue (j :: t)
          = ⟨j :: t, none, none, [], [], false⟩ := by
        simp only [sched_loop]
        rw [hml]
        simp
      rw [hloop]
      simp [tick_after, hq]
    · rw [if_neg hgate]
      simp [tick_after, hheld, hq]

/-- C2 witness: a tick on the concrete state whose head job's meta-agent is
at its limit leaves the queue unchanged with the job still at the head. -/
theorem c2_max_limit_break_witness :
    (scheduler_update stMaxed).job_queue = [jFull]
    ∧ (scheduler_update stMaxed).spawns = []
    ∧ (scheduler_update stMaxed).job_queue.head? = some jFull := by
  have h := c2_max_limit_break stMaxed jFull [] mFull rfl rfl (by decide) rfl
  exact ⟨h.1, h.2.1, h.2.2.2⟩

/- ********************************************************************** -/
/- C9: isMaxLimitReached is total; NULL meta-agent proceeds to placement  -/
/- ********************************************************************** -/

/-- C9: `isMaxLimitReached` applied to NULL returns FALSE rather than an
error, so for a head job whose agent type has no registered meta-agent the
placement loop treats the limit as not reached and proceeds to host
selection: with a free host available the job is the first placement of
the tick. -/
theorem c9_null_meta_limit_not_reached (s : SchedState) (j : Job)
    (t : List Job) (h : Host)
    (hq : s.job_queue = j :: t)
    (hm : s.meta_agents j.agent_type = none)
    (hrh : j.required_host = none)
    (hget : get_host s.host_queue = some h)
    (hheld : s.held_job = none)
    (hlock : s.lockout = false)
    (hcl : s.closing = false) :
    isMaxLimitReached none = false
    ∧ (scheduler_update s).spawns.head? = some (some h, j) := by
  refine ⟨rfl, ?_⟩
  simp only [scheduler_update]
  rw [if_neg (by simp [hcl])]
  have hgatep : s.held_job = none
      ∧ (if s.lockout = true ∧ s.n_agents = 0 ∧ s.n_jobs = 0 then false
          else s.lockout) = false := ⟨hheld, by simp [hlock]⟩
  rw [if_pos hgatep, hq]
  have hsel : select_host s.meta_agents s.host_list s.host_queue j
      = HostSel.chosen h := by
    simp only [select_host]
    rw [hm]
    simp [is_meta_special, hrh, hget]
  have hloop : sched_loop s.meta_agents s.host_list s.host_queue (j :: t)
      = ⟨(sched_loop s.meta_agents s.host_list s.host_queue t).queue,
         (sched_loop s.meta_agents s.host_list s.host_queue t).job,
         (sched_loop s.meta_agents s.host_list s.host_queue t).host,
         (some h, j) :: (sched_loop s.meta_agents s.host_list s.host_queue t).spawns,
         (sched_loop s.meta_agents s.host_list s.host_queue t).failed,
         (sched_loop s.meta_agents s.host_list s.host_queue t).crash⟩ := by
    simp only [sched_loop]
    rw [hm]
    simp only [isMaxLimitReached, Bool.false_eq_true, if_false]
    rw [hsel]
    simp [is_meta_special]
  rw [hloop]
  simp only [tick_after]
  split
  · simp
  · split
    · split
      · simp
      · simp
    · simp

/-- C9 witness: a tick on the concrete state whose head job has no
registered meta-agent places that job on the free host. -/
theorem c9_null_meta_limit_not_reached_witness :
    isMaxLimitReached none = false
    ∧ (scheduler_update stNoMeta).spawns.head? = some (some hostA, jGen) :=
  c9_null_meta_limit_not_reached stNoMeta jGen [] hostA rfl rfl rfl rfl rfl
    rfl rfl

/- ********************************************************************** -/
/- C3: a missing pinned host fails the job and the queue advances         -/
/- ********************************************************************** -/

/-- C3: when the head job pins a `required_host` that is not in the host
registry, the tick sets the job's message to
`"ERROR: jq_host not in the agent list!"`, fails the job (status FAILED)
and the head of the queue advances past it; nothing is spawned. -/
theorem c3_missing_pinned_host (s : SchedState) (j : Job) (t : List Job)
    (rh : String)
    (hq : s.job_queue = j :: t)
    (hnm : isMaxLimitReached (s.meta_agents j.agent_type) = false)
    (hnl : is_meta_special (s.meta_agents j.agent_type) SpecialFlag.LOCAL
      = false)
    (hrh : j.required_host = some rh)
    (hmiss : s.host_list rh = none)
    (hheld : s.held_job = none)
    (hlock : s.lockout = false)
    (hcl : s.closing = false) :
    (scheduler_update s).failed = [fail_jq_host j]
    ∧ (fail_jq_host j).message = jqHostErrorMsg
    ∧ (fail_jq_host j).status = JobStatus.FAILED
    ∧ (scheduler_update s).job_queue = t
    ∧ (scheduler_update s).spawns = [] := by
  simp only [scheduler_update]
  rw [if_neg (by simp [hcl])]
  have hgatep : s.held_job = none
      ∧ (if s.lockout = true ∧ s.n_agents = 0 ∧ s.n_jobs = 0 then false
          else s.lockout) = false := ⟨hheld, by simp [hlock]⟩
  rw [if_pos hgatep, hq]
  have hsel : select_host s.meta_agents s.host_list s.host_queue j
      = HostSel.fail (fail_jq_host j) := by
    simp only [select_host]
    rw [hnl]
    simp [hrh, hmiss]
  have hloop : sched_loop s.meta_agents s.host_list s.host_queue (j :: t)
      = ⟨t, none, none, [], [fail_jq_host j], false⟩ := by
    simp only [sched_loop]
    rw [hnm]
    simp only [Bool.false_eq_true, if_false]
    rw [hsel]
  rw [hloop]
  simp [tick_after, fail_jq_host]

/-- C3 witness: a tick on the concrete state whose head job pins the absent
host `"ghost"` fails that job with the exact message and advances the
queue. -/
theorem c3_missing_pinned_host_witness :
    (scheduler_update stGhost).failed = [fail_jq_host jPin]
    ∧ (fail_jq_host jPin).message = jqHostErrorMsg
    ∧ (scheduler_update stGhost).job_queue = [] := by
  have h := c3_missing_pinned_host stGhost jPin [] "ghost" rfl rfl rfl rfl
    rfl rfl rfl rfl
  exact ⟨h.1, h.2.1, h.2.2.2.1⟩

/- ********************************************************************** -/
/- C8: empty host registry — LOCAL crashes (code bug), generic waits      -/
/- ********************************************************************** -/

/-- C8: evaluating the tick at the claim's scenario.  With an empty host
registry, a head job whose meta-agent has the LOCAL flag drives the code
into the unchecked NULL dereference `host->running` (the `g_tree_lookup`
of `"localhost"` returns NULL and no NULL test is made, unlike in the
`required_host` branch), rather than failing the job with
`"host not in agent list"` as the claim states; a generic (non-LOCAL) head
job merely waits: the queue is unchanged and nothing is spawned or
failed. -/
theorem c8_empty_host_registry :
    (scheduler_update stLocalEmpty).crash = true
    ∧ (scheduler_update stLocalEmpty).failed = []
    ∧ (scheduler_update stGenEmpty).job_queue = [jGen]
    ∧ (scheduler_update stGenEmpty).spawns = []
    ∧ (scheduler_update stGenEmpty).failed = [] := by
  exact ⟨rfl, rfl, rfl, rfl, rfl⟩

/- ********************************************************************** -/
/- C1: exclusive hold, lockout and drain dispatch (corrected)             -/
/- ********************************************************************** -/

/-- C1 counterexample: at a tick with one live agent and an EXCLUSIVE job
at the head of the queue, the code advances the queue and stores the job in
the held slot but does NOT set `lockout` — refuting the claim that the
hold step sets the lockout flag (the code sets it only when the held job
is later dispatched). -/
theorem c1_counterexample_hold_without_lockout :
    (scheduler_update stExclBusy).held_job = some jExcl
    ∧ (scheduler_update stExclBusy).lockout = false := by
  exact ⟨rfl, rfl⟩

/-- C1 (amended): (a) when the head job's meta-agent is EXCLUSIVE and a
host is available, the tick advances the queue, stores `(job, host)` in the
held slot and breaks WITHOUT setting `lockout`; (b) if the start counts of
that same tick are both zero the held job is dispatched at once with
`lockout` set; (c) while the held slot is occupied no job other than the
held one is spawned and the queue is untouched; (d) while `lockout` is set
(and the system has not drained, which would clear it) no placements
occur; (e) at a tick that starts with the held slot occupied and both
counts zero, the held job is spawned on the held host, `lockout` is set
and the slot is cleared; (f) at a tick that starts with the held slot
occupied and a nonzero count, nothing is spawned, the job stays held and
`lockout` is untouched — so the held job is spawned only at a tick whose
start counts are both zero, and `lockout` is set at that dispatch. -/
theorem c1_exclusive_hold (s : SchedState) (j : Job) (t : List Job)
    (m : MetaAgent) (h : Host) :
    ((s.job_queue = j :: t → s.meta_agents j.agent_type = some m →
      m.run_count < m.max_run → SpecialFlag.LOCAL ∉ m.special →
      SpecialFlag.EXCLUSIVE ∈ m.special → j.required_host = none →
      get_host s.host_queue = some h → s.held_job = none →
      s.lockout = false → s.closing = false →
      ¬(s.n_agents = 0 ∧ s.n_jobs = 0) →
      (scheduler_update s).job_queue = t
      ∧ (scheduler_update s).held_job = some j
      ∧ (scheduler_update s).held_host = some h
      ∧ (scheduler_update s).lockout = false
      ∧ (scheduler_update s).spawns = []))
    ∧ ((s.job_queue = j :: t → s.meta_agents j.agent_type = some m →
      m.run_count < m.max_run → SpecialFlag.LOCAL ∉ m.special →
      SpecialFlag.EXCLUSIVE ∈ m.special → j.required_host = none →
      get_host s.host_queue = some h → s.held_job = none →
      s.lockout = false → s.closing = false →
      s.n_agents = 0 → s.n_jobs = 0 →
      (scheduler_update s).spawns = [(some h, j)]
      ∧ (scheduler_update s).lockout = true
      ∧ (scheduler_update s).held_job = none
      ∧ (scheduler_update s).job_queue = t))
    ∧ (s.held_job = some j →
      (scheduler_update s).job_queue = s.job_queue
      ∧ (scheduler_update s).failed = []
      ∧ ∀ p ∈ (scheduler_update s).spawns, p.2 = j)
    ∧ (s.lockout = true → s.held_job = none →
      ¬(s.n_agents = 0 ∧ s.n_jobs = 0) →
      (scheduler_update s).spawns = []
      ∧ (scheduler_update s).job_queue = s.job_queue
      ∧ (scheduler_update s).failed = [])
    ∧ (s.held_job = some j → s.held_host = some h → s.closing = false →
      s.n_agents = 0 → s.n_jobs = 0 →
      (scheduler_update s).spawns = [(some h, j)]
      ∧ (scheduler_update s).lockout = true
      ∧ (scheduler_update s).held_job = none
      ∧ (scheduler_update s).job_queue = s.job_queue)
    ∧ (s.held_job = some j → ¬(s.n_agents = 0 ∧ s.n_jobs = 0) →
      (scheduler_update s).spawns = []
      ∧ (scheduler_update s).held_job = some j
      ∧ (scheduler_update s).lockout = s.lockout
      ∧ (scheduler_update s).job_queue = s.job_queue) := by
  have hplace : ∀ (hq : s.job_queue = j :: t)
      (hm : s.meta_agents j.agent_type = some m)
      (hrun : m.run_count < m.max_run) (hnl : SpecialFlag.LOCAL ∉ m.special)
      (hexc : SpecialFlag.EXCLUSIVE ∈ m.special)
      (hrh : j.required_host = none) (hget : get_host s.host_queue = some h)
      (hheld : s.held_job = none) (hlock : s.lockout = false)
      (hcl : s.closing = false),
      sched_loop s.meta_agents s.host_list s.host_queue (j :: t)
        = ⟨t, some j, some h, [], [], false⟩ := by
    intro hq hm hrun hnl hexc hrh hget hheld hlock hcl
    have hmlf : isMaxLimitReached (s.meta_agents j.agent_type) = false := by
      rw [hm]
      simp only [isMaxLimitReached]
      exact decide_eq_false (Nat.not_le.mpr hrun)
    have hlocf : is_meta_special (s.meta_agents j.agent_type)
        SpecialFlag.LOCAL = false := by
      rw [hm]
      simp [is_meta_special, hnl]
    have hexct : is_meta_special (s.meta_agents j.agent_type)
        SpecialFlag.EXCLUSIVE = true := by
      rw [hm]
      simp [is_meta_special, hexc]
    have hsel : select_host s.meta_agents s.host_list s.host_queue j
        = HostSel.chosen h := by
      simp only [select_host]
      rw [hlocf]
      simp [hrh, hget]
    simp only [sched_loop]
    rw [hmlf]
    simp only [Bool.false_eq_true, if_false]
    rw [hsel]
    rw [hexct]
    simp
  refine ⟨?_, ?_, ?_, ?_, ?_, ?_⟩
  · intro hq hm hrun hnl hexc hrh hget hheld hlock hcl hnz
    simp only [scheduler_update]
    rw [if_neg (by simp [hcl])]
    have hgatep : s.held_job = none
        ∧ (if s.lockout = true ∧ s.n_agents = 0 ∧ s.n_jobs = 0 then false
            else s.lockout) = false := ⟨hheld, by simp [hlock]⟩
    rw [if_pos hgatep, hq]
    rw [hplace hq hm hrun hnl hexc hrh hget hheld hlock hcl]
    simp [tick_after, hnz, hlock]
  · intro hq hm hrun hnl hexc hrh hget hheld hlock hcl hz1 hz2
    simp only [scheduler_update]
    rw [if_neg (by simp [hcl])]
    have hgatep : s.held_job = none
        ∧ (if s.lockout = true ∧ s.n_agents = 0 ∧ s.n_jobs = 0 then false
            else s.lockout) = false := ⟨hheld, by simp [hlock]⟩
    rw [if_pos hgatep, hq]
    rw [hplace hq hm hrun hnl hexc hrh hget hheld hlock hcl]
    simp [tick_after, hz1, hz2]
  · intro hheld2
    simp only [scheduler_update]
    by_cases hterm : s.closing = true ∧ s.n_agents = 0 ∧ s.n_jobs = 0
    · rw [if_pos hterm]
      exact ⟨rfl, rfl, by simp⟩
    · rw [if_neg hterm]
      have hgate : ¬(s.held_job = none
          ∧ (if s.lockout = true ∧ s.n_agents = 0 ∧ s.n_jobs = 0 then false
              else s.lockout) = false) := by
        intro hcon
        rw [hheld2] at hcon
        exact Option.noConfusion hcon.1
      rw [if_neg hgate]
      simp only [tick_after, hheld2]
      simp only [Bool.false_eq_true, if_false]
      split
      · refine ⟨rfl, rfl, ?_⟩
        intro p hp
        simp only [List.nil_append, List.mem_singleton] at hp
        subst hp
        rfl
      · refine ⟨rfl, rfl, ?_⟩
        intro p hp
        simp at hp
  · intro hlck hheldn hnz
    simp only [scheduler_update]
    rw [if_neg (fun hc => hnz hc.2)]
    have hL : (if s.lockout = true ∧ s.n_agents = 0 ∧ s.n_jobs = 0 then false
        else s.lockout) = true := by
      rw [if_neg (fun hc => hnz hc.2), hlck]
    have hgate : ¬(s.held_job = none
        ∧ (if s.lockout = true ∧ s.n_agents = 0 ∧ s.n_jobs = 0 then false
            else s.lockout) = false) := by
      intro hcon
      rw [hL] at hcon
      exact Bool.noConfusion hcon.2
    rw [if_neg hgate]
    simp only [tick_after, hheldn]
    exact ⟨rfl, rfl, rfl⟩
  · intro hheld2 hhost hcl hz1 hz2
    simp only [scheduler_update]
    rw [if_neg (by simp [hcl])]
    have hgate : ¬(s.held_job = none
        ∧ (if s.lockout = true ∧ s.n_agents = 0 ∧ s.n_jobs = 0 then false
            else s.lockout) = false) := by
      intro hcon
      rw [hheld2] at hcon
      exact Option.noConfusion hcon.1
    rw [if_neg hgate]
    simp only [tick_after, hheld2, hhost]
    simp only [Bool.false_eq_true, if_false]
    split
    · exact ⟨by simp, rfl, rfl, rfl⟩
    · next hz => exact absurd ⟨hz1, hz2⟩ hz
  · intro hheld2 hnz
    simp only [scheduler_update]
    rw [if_neg (fun hc => hnz hc.2)]
    have hgate : ¬(s.held_job = none
        ∧ (if s.lockout = true ∧ s.n_agents = 0 ∧ s.n_jobs = 0 then false
            else s.lockout) = false) := by
      intro hcon
      rw [hheld2] at hcon
      exact Option.noConfusion hcon.1
    rw [if_neg hgate]
    simp only [tick_after, hheld2]
    simp only [Bool.false_eq_true, if_false]
    split
    · next hz => exact absurd hz hnz
    · refine ⟨rfl, rfl, ?_, rfl⟩
      exact if_neg (fun hc => hnz hc.2)

/-- C1 witness: at the busy concrete state the EXCLUSIVE head job is held
with lockout still clear; at the drained concrete state the held-to-be job
is dispatched in the same tick with lockout set; at the drained concrete
state whose held slot was filled in an earlier tick the held job is
dispatched with lockout set and the slot cleared; at the busy held state
nothing is spawned and the job stays held. -/
theorem c1_exclusive_hold_witness :
    (scheduler_update stExclBusy).job_queue = []
    ∧ (scheduler_update stExclBusy).held_host = some hostA
    ∧ (scheduler_update stExclIdle).spawns = [(some hostA, jExcl)]
    ∧ (scheduler_update stExclIdle).lockout = true
    ∧ (scheduler_update stHeldIdle).spawns = [(some hostA, jExcl)]
    ∧ (scheduler_update stHeldIdle).lockout = true
    ∧ (scheduler_update stHeldIdle).held_job = none
    ∧ (scheduler_update stHeldBusy).spawns = []
    ∧ (scheduler_update stHeldBusy).held_job = some jExcl := by
  have ha := (c1_exclusive_hold stExclBusy jExcl [] mExcl hostA).1 rfl rfl
    (by decide) (by decide) (by decide) rfl rfl rfl rfl rfl (by decide)
  have hb := (c1_exclusive_hold stExclIdle jExcl [] mExcl hostA).2.1 rfl rfl
    (by decide) (by decide) (by decide) rfl rfl rfl rfl rfl rfl rfl
  have he := (c1_exclusive_hold stHeldIdle jExcl [] mExcl hostA).2.2.2.2.1
    rfl rfl rfl rfl rfl
  have hf := (c1_exclusive_hold stHeldBusy jExcl [] mExcl hostA).2.2.2.2.2
    rfl (by decide)
  exact ⟨ha.1, ha.2.2.1, hb.1, hb.2.1, he.1, he.2.1, he.2.2.1, hf.1, hf.2.1⟩

end FossSched
